import Mathlib

/-!
Verification development for the plot-stock-charts repository.

The definitions below are a shallow embedding of the trading-session
windowing and timestamp-alignment pipeline:

* `Date`, `prevDate`, `lastDayOfMonth` embed the calendar-date model and the
  manual previous-day arithmetic of `src/exchange/calendar.py`
  (`ExchangeCalendar.get_latest_trading_days` and `_get_last_day_of_month`).
* `rataDie`, `daysInMonth`, `validDate` are the independent reference model of
  the proleptic Gregorian calendar used to judge that arithmetic.
* `DateTime`, `OHLCV`, `StockDataset` and its filters embed
  `src/data/data_models.py`; timestamps are compared the way Python compares
  offset-aware datetimes, namely by their absolute instant.
* `Sched` abstracts the external exchange-calendars data source: it is the
  per-date boundary lookup that `ExchangeCalendar.get_trading_hours`
  implements (`none` models a closed date, from an empty schedule row, NaT
  boundaries, or a lookup error).
* `filter_trading_hours`, `get_latest_trading_days`, `multiDayFilter`,
  `alignIndicator`, `validate_periods_against_data`, `load_csv` and
  `export_to_json` embed the corresponding functions of
  `src/exchange/calendar.py`, `src/main.py`, `src/indicators/parser.py`,
  `src/indicators/calculator.py`, `src/data/csv_reader.py` and
  `src/output/json_exporter.py`. Raising `ValueError` is modelled by
  `Except.error`; `sys.exit(1)` on a caught error is modelled by an
  `Except.error` outcome of the embedded stage.
-/

namespace PlotStock

/-- Calendar date with the same three fields as a Python `datetime.date`.
Fields are unbounded integers; the subset that Python can represent is the
subset satisfying `validDate`. -/
structure Date where
  year : Int
  month : Int
  day : Int
deriving DecidableEq

/-- Lexicographic strict order on dates, matching how Python orders
`datetime.date` values. -/
def Date.lt (a b : Date) : Prop :=
  a.year < b.year ∨ (a.year = b.year ∧
    (a.month < b.month ∨ (a.month = b.month ∧ a.day < b.day)))

instance (a b : Date) : Decidable (Date.lt a b) := by
  unfold Date.lt
  infer_instance

/-- Embedding of `ExchangeCalendar._get_last_day_of_month`: the hand-rolled
month-length table, including its leap-year test. -/
def lastDayOfMonth (year month : Int) : Int :=
  if month = 1 ∨ month = 3 ∨ month = 5 ∨ month = 7 ∨ month = 8 ∨
      month = 10 ∨ month = 12 then 31
  else if month = 4 ∨ month = 6 ∨ month = 9 ∨ month = 11 then 30
  else if (year % 4 = 0 ∧ year % 100 ≠ 0) ∨ year % 400 = 0 then 29
  else 28

/-- Embedding of the nested conditional expression inside
`ExchangeCalendar.get_latest_trading_days` that moves `current_date` one
calendar day backwards. -/
def prevDate (d : Date) : Date :=
  if 1 < d.day then ⟨d.year, d.month, d.day - 1⟩
  else if 1 < d.month then ⟨d.year, d.month - 1, lastDayOfMonth d.year (d.month - 1)⟩
  else ⟨d.year - 1, 12, 31⟩

/-- Reference model: the proleptic Gregorian leap-year rule. -/
def isLeapYear (y : Int) : Prop := (y % 4 = 0 ∧ y % 100 ≠ 0) ∨ y % 400 = 0

instance (y : Int) : Decidable (isLeapYear y) := by
  unfold isLeapYear
  infer_instance

/-- Reference model: the true number of days of a month of the proleptic
Gregorian calendar. -/
def daysInMonth (y m : Int) : Int :=
  if m = 2 then (if isLeapYear y then 29 else 28)
  else if m = 4 ∨ m = 6 ∨ m = 9 ∨ m = 11 then 30
  else 31

/-- Reference model: a date is a valid proleptic Gregorian date when its month
is in 1..12 and its day fits the month. -/
def validDate (d : Date) : Prop :=
  1 ≤ d.month ∧ d.month ≤ 12 ∧ 1 ≤ d.day ∧ d.day ≤ daysInMonth d.year d.month

instance (d : Date) : Decidable (validDate d) := by
  unfold validDate
  infer_instance

/-- Reference model: number of leap years in the interval from year 1 up to
and including year `n` (for nonnegative `n`), extended to all integers by
floor division. -/
def leapCount (n : Int) : Int := n / 4 - n / 100 + n / 400

/-- Reference model: days occurring before month `m` in a non-leap year. -/
def daysBeforeMonth (m : Int) : Int :=
  if m ≤ 1 then 0
  else if m = 2 then 31
  else if m = 3 then 59
  else if m = 4 then 90
  else if m = 5 then 120
  else if m = 6 then 151
  else if m = 7 then 181
  else if m = 8 then 212
  else if m = 9 then 243
  else if m = 10 then 273
  else if m = 11 then 304
  else 334

/-- Reference model: the rata die ordinal of a date; `0001-01-01` maps to 1
and consecutive valid dates map to consecutive integers. -/
def rataDie (d : Date) : Int :=
  365 * (d.year - 1) + leapCount (d.year - 1) + daysBeforeMonth d.month +
    (if 2 < d.month ∧ isLeapYear d.year then 1 else 0) + d.day

/-- Offset-aware instant in time, as parsed from the CSV (`%z` format): a
local calendar date, a local time of day in seconds, and a UTC offset in
seconds. -/
structure DateTime where
  date : Date
  tod : Int
  off : Int
deriving DecidableEq

/-- Absolute position of an offset-aware datetime on the UTC time line, in
seconds. Python compares offset-aware datetimes by exactly this quantity. -/
def DateTime.instant (t : DateTime) : Int :=
  rataDie t.date * 86400 + t.tod - t.off

/-- Naive datetime (no UTC offset), the result of
`timestamp.replace(tzinfo=None)` in the JSON exporter. -/
structure NaiveDT where
  date : Date
  tod : Int
deriving DecidableEq

/-- Offset-normalization used by the JSON exporter: drop the UTC offset and
keep the local wall-clock fields. -/
def normalizeTimestamp (t : DateTime) : NaiveDT := ⟨t.date, t.tod⟩

/-- Model of a Python float as stored in an OHLCV row: either a finite value
(modelled as a rational) or one of the non-finite values. -/
inductive Fl where
  | fin (q : ℚ)
  | nan
  | inf
  | neginf
deriving DecidableEq

/-- Finiteness test on the float model. -/
def Fl.isFinite : Fl → Bool
  | .fin _ => true
  | _ => false

/-- The comparison `0 <= x` on the float model, with the Python float
semantics: true for nonnegative finite values and for positive infinity,
false for NaN and negative infinity. -/
def Fl.ge0 : Fl → Bool
  | .fin q => decide (0 ≤ q)
  | .nan => false
  | .inf => true
  | .neginf => false

/-- Embedding of `OHLCVData` from `src/data/data_models.py`. The Python field
`open` is a Lean keyword and is rendered `open_`. -/
structure OHLCV where
  timestamp : DateTime
  open_ : Fl
  high : Fl
  low : Fl
  close : Fl
  volume : Fl
deriving DecidableEq

/-- Boolean timestamp comparison between data points: the order Python uses
when sorting by `x.timestamp`. -/
def tsLE (a b : OHLCV) : Bool := decide (a.timestamp.instant ≤ b.timestamp.instant)

/-- Embedding of `StockDataset`: the stored list of points. -/
structure StockDataset where
  data : List OHLCV
deriving DecidableEq

/-- Embedding of `StockDataset.__init__`: store the input points stably sorted
by timestamp (`sorted(data, key=lambda x: x.timestamp)`). -/
def mkStockDataset (l : List OHLCV) : StockDataset := ⟨l.mergeSort tsLE⟩

/-- Embedding of `StockDataset.filter_by_date`: keep the points whose local
calendar date equals the calendar date of `target`, then rebuild a dataset. -/
def filter_by_date (ds : StockDataset) (target : DateTime) : StockDataset :=
  mkStockDataset (ds.data.filter (fun p => decide (p.timestamp.date = target.date)))

/-- The predicate `start_time <= point.timestamp <= end_time` used by
`StockDataset.filter_by_time_range`, on offset-aware instants. -/
def inSession (s e : DateTime) (p : OHLCV) : Bool :=
  decide (s.instant ≤ p.timestamp.instant) && decide (p.timestamp.instant ≤ e.instant)

/-- Embedding of `StockDataset.filter_by_time_range`: keep the points inside
the inclusive range, then rebuild a dataset. -/
def filter_by_time_range (ds : StockDataset) (s e : DateTime) : StockDataset :=
  mkStockDataset (ds.data.filter (inSession s e))

/-- Abstraction of `ExchangeCalendar.get_trading_hours`: the authoritative
boundary lookup of the external calendar source; `none` means the venue has no
open and close boundary for that date. -/
def Sched : Type := Date → Option (DateTime × DateTime)

/-- Embedding of `ExchangeCalendar.is_trading_day`: the boundary lookup
succeeds. -/
def is_trading_day (sched : Sched) (d : Date) : Bool := (sched d).isSome

/-- Embedding of `ExchangeCalendar.filter_trading_hours`: raise (model:
`Except.error`) when the boundary lookup reports the venue closed, and
otherwise return the time-range filtered dataset, empty or not. -/
def filter_trading_hours (sched : Sched) (ds : StockDataset) (target : Date) :
    Except String StockDataset :=
  match sched target with
  | none => Except.error "Exchange is closed on the target date"
  | some (o, c) => Except.ok (filter_by_time_range ds o c)

/-- Embedding of the backward-walk loop of
`ExchangeCalendar.get_latest_trading_days`. The fuel argument is the number of
loop iterations still allowed by `days_checked < max_days_to_check`; `acc` is
the `trading_days` list collected so far (newest first). -/
def gltdAux (sched : Sched) (numDays : Int) : Nat → Date → List Date → List Date
  | 0, _, acc => acc
  | fuel + 1, cur, acc =>
    if (acc.length : Int) < numDays then
      gltdAux sched numDays fuel (prevDate cur)
        (if is_trading_day sched cur then acc ++ [cur] else acc)
    else acc

/-- Embedding of `ExchangeCalendar.get_latest_trading_days`: walk backwards
from `latest`, collect trading days until `numDays` are found or
`numDays * 10` calendar days have been examined, and return them oldest
first. -/
def get_latest_trading_days (sched : Sched) (latest : Date) (numDays : Int) :
    List Date :=
  if numDays ≤ 0 then []
  else (gltdAux sched numDays (numDays * 10).toNat latest []).reverse

/-- Reference model: the backward walk itself, the list of the `k` consecutive
calendar days starting at `cur` and stepping backwards one day at a time. -/
def walkDates : Nat → Date → List Date
  | 0, _ => []
  | k + 1, cur => cur :: walkDates k (prevDate cur)

/-- One iteration of the multi-day filtering loop of `main`: extend the
collected points `acc` with the day slice of `dataset` for `day`, filtered to
trading hours with the closed-day and empty-result fallbacks, skipping the day
entirely when its slice is empty. -/
def multiDayBody (sched : Sched) (dataset : StockDataset) (acc : List OHLCV)
    (day : Date) : List OHLCV :=
  let dayDs := filter_by_date dataset ⟨day, 0, 0⟩
  if dayDs.data.isEmpty then acc
  else
    match filter_trading_hours sched dayDs day with
    | Except.ok f => if f.data.isEmpty then acc ++ dayDs.data else acc ++ f.data
    | Except.error _ => acc ++ dayDs.data

/-- Embedding of the multi-day filtering branch of `main` (`src/main.py`,
lines 333 to 357): run `multiDayBody` over the trading days in order, then
build a dataset from the collected points, falling back to the whole input
dataset when nothing was collected. -/
def multiDayFilter (sched : Sched) (dataset : StockDataset)
    (tradingDays : List Date) : StockDataset :=
  let allFiltered := tradingDays.foldl (multiDayBody sched dataset) []
  if allFiltered.isEmpty then dataset else mkStockDataset allFiltered

/-- Reference model (from the specification of the multi-day case): the
same-day slice of a raw point list, a same-day predicate rather than a
boundary filter. -/
def sameDaySlice (l : List OHLCV) (day : Date) : List OHLCV :=
  l.filter (fun p => decide (p.timestamp.date = day))

/-- Reference model (from the specification of the multi-day case): the
per-day result, namely the trading-hours filter of the same-day slice with
fallback to the whole slice when the venue is closed on `day` or when the
trading-hours result is empty. -/
def specPerDay (sched : Sched) (l : List OHLCV) (day : Date) : List OHLCV :=
  let s := sameDaySlice l day
  match sched day with
  | none => s
  | some (o, c) =>
    let f := s.filter (inSession o c)
    if f.isEmpty then s else f

/-- Reference model (from the specification of the multi-day case): the
concatenation of the per-day results in the order of the given days. -/
def specConcat (sched : Sched) (l : List OHLCV) (days : List Date) : List OHLCV :=
  (days.map (specPerDay sched l)).flatten

/-- Embedding of the indicator alignment step of `main` (`src/main.py`, lines
364 to 381): keep exactly the indicator entries whose timestamp occurs among
the timestamps of the filtered display dataset. Membership in the Python set
of offset-aware datetimes is equality of absolute instants. -/
def alignIndicator (indicatorPoints : List (DateTime × Option Fl))
    (filtered : StockDataset) : List (DateTime × Option Fl) :=
  indicatorPoints.filter (fun tv =>
    filtered.data.any (fun p => decide (p.timestamp.instant = tv.1.instant)))

/-- Parsed indicator specification, the `(indicator_type, period, color)`
tuples of `IndicatorParser`. -/
structure IndicatorSpec where
  typ : String
  period : Int
  color : String
deriving DecidableEq

/-- Embedding of `IndicatorParser.validate_periods_against_data`: drop every
indicator whose period exceeds the data length, raise when no data is
available or when no indicator survives. -/
def validate_periods_against_data (indicators : List IndicatorSpec)
    (dataLength : Int) : Except String (List IndicatorSpec) :=
  if dataLength ≤ 0 then Except.error "No data available for indicator calculations"
  else
    let valid := indicators.filter (fun i => decide (i.period ≤ dataLength))
    if valid.isEmpty then
      Except.error s!"No indicators have valid periods for {dataLength} data points"
    else Except.ok valid

/-- Embedding of `IndicatorCalculator.validate_data_sufficiency`: the same
filter with the minimum requirement `min_required = period`, raising when the
dataset is empty or when no indicator survives. -/
def validate_data_sufficiency (dataLength : Int)
    (indicators : List IndicatorSpec) : Except String (List IndicatorSpec) :=
  if dataLength ≤ 0 then Except.error "Dataset is empty"
  else
    let valid := indicators.filter (fun i => decide (i.period ≤ dataLength))
    if valid.isEmpty then
      Except.error s!"No indicators can be calculated with {dataLength} data points"
    else Except.ok valid

/-- Embedding of the indicator-validation part of the indicator processing
block of `main` (`src/main.py`, lines 226 to 251): period validation followed
by data-sufficiency validation over the full-history length. Any error is
caught by `main` and turned into `sys.exit(1)`, which the `Except.error`
outcome models. -/
def process_indicators (specs : List IndicatorSpec) (fullLength : Int) :
    Except String (List IndicatorSpec) :=
  match validate_periods_against_data specs fullLength with
  | Except.error e => Except.error e
  | Except.ok cfg => validate_data_sufficiency fullLength cfg

/-- Model of one CSV row after cell-level parsing, as consumed by
`CSVReader.load_csv`: each field is `none` when the corresponding
`parse_datetime` or `float(...)` call raises, and `some` with the parsed value
otherwise. Note that `float` accepts NaN, infinities and negative values. -/
structure CsvRow where
  localTime : Option DateTime
  open_ : Option Fl
  high : Option Fl
  low : Option Fl
  close : Option Fl
  volume : Option Fl
deriving DecidableEq

/-- Embedding of the per-row body of `CSVReader.load_csv`: a row survives
exactly when the timestamp and all five numeric fields parsed. -/
def parseRow (r : CsvRow) : Option OHLCV :=
  match r.localTime, r.open_, r.high, r.low, r.close, r.volume with
  | some t, some o, some h, some l, some c, some v => some ⟨t, o, h, l, c, v⟩
  | _, _, _, _, _, _ => none

/-- Embedding of `CSVReader.load_csv`: parse the rows, skip the invalid ones,
raise when no row survives, and otherwise build the dataset. -/
def load_csv (rows : List CsvRow) : Except String StockDataset :=
  let pts := rows.filterMap parseRow
  if pts.isEmpty then Except.error "No valid data found in CSV file"
  else Except.ok (mkStockDataset pts)

/-- One record of the `data` array produced by
`JSONExporter._create_json_structure`: the offset-normalized timestamp and the
five OHLCV values of one point. -/
structure JsonRecord where
  timestamp : NaiveDT
  open_ : Fl
  high : Fl
  low : Fl
  close : Fl
  volume : Fl
deriving DecidableEq

/-- The JSON document produced by the exporter: the metadata point count and
the `data` array. -/
structure JsonStructure where
  dataPointsCount : Nat
  data : List JsonRecord
deriving DecidableEq

/-- Embedding of the per-point record construction inside
`JSONExporter._create_json_structure`. -/
def recordOfPoint (p : OHLCV) : JsonRecord :=
  ⟨normalizeTimestamp p.timestamp, p.open_, p.high, p.low, p.close, p.volume⟩

/-- Embedding of `JSONExporter._create_json_structure`: one record per stored
point, in storage order. -/
def create_json_structure (ds : StockDataset) : JsonStructure :=
  ⟨ds.data.length, ds.data.map recordOfPoint⟩

/-- Embedding of `JSONExporter.export_to_json`: raise on an empty dataset,
otherwise emit the JSON structure. -/
def export_to_json (ds : StockDataset) : Except String JsonStructure :=
  if ds.data.isEmpty then Except.error "Dataset is empty, cannot export to JSON"
  else Except.ok (create_json_structure ds)

/-- Re-reading the `data` array of an exported JSON document. -/
def read_data_array (j : JsonStructure) : List JsonRecord := j.data

/-- Concrete session open boundary used by witnesses: 2024-01-01 09:00:00
local time, offset UTC+1. -/
def tOpen : DateTime := ⟨⟨2024, 1, 1⟩, 32400, 3600⟩

/-- Concrete session close boundary used by witnesses: 2024-01-01 17:30:00
local time, offset UTC+1. -/
def tClose : DateTime := ⟨⟨2024, 1, 1⟩, 63000, 3600⟩

/-- Concrete calendar used by witnesses: every date is open with the same
boundaries. -/
def schedOpen : Sched := fun _ => some (tOpen, tClose)

/-- Concrete calendar used by witnesses and counterexamples: every date is
closed. -/
def schedClosed : Sched := fun _ => none

/-- Concrete data point used by counterexamples and witnesses: a bar at
2024-01-01 10:00:00 local time, offset UTC+1. -/
def p2024 : OHLCV :=
  ⟨⟨⟨2024, 1, 1⟩, 36000, 3600⟩, .fin 1, .fin 2, .fin 1, .fin 2, .fin 100⟩

/-- Concrete single-point dataset holding `p2024`. -/
def dsOne : StockDataset := ⟨[p2024]⟩

/-- Concrete CSV row whose fields all parse but whose volume is negative. -/
def rowNegVolume : CsvRow :=
  ⟨some ⟨⟨2024, 1, 2⟩, 36000, 3600⟩, some (.fin 1), some (.fin 2), some (.fin 1),
    some (.fin 2), some (.fin (-5))⟩

/-- The point that `rowNegVolume` parses to. -/
def ptNegVolume : OHLCV :=
  ⟨⟨⟨2024, 1, 2⟩, 36000, 3600⟩, .fin 1, .fin 2, .fin 1, .fin 2, .fin (-5)⟩

theorem Date.lt_trans {a b c : Date} (h1 : Date.lt a b) (h2 : Date.lt b c) :
    Date.lt a c := by
  unfold Date.lt at h1 h2 ⊢
  rcases a with ⟨ay, am, ad⟩
  rcases b with ⟨by_, bm, bd⟩
  rcases c with ⟨cy, cm, cd⟩
  simp only at h1 h2 ⊢
  omega

theorem prevDate_lt (d : Date) : Date.lt (prevDate d) d := by
  unfold prevDate Date.lt
  rcases d with ⟨y, m, dd⟩
  by_cases h1 : 1 < dd
  · simp [h1]
  · by_cases h2 : 1 < m
    · simp [h1, h2]
    · simp [h1, h2]

theorem leapCount_step (n : Int) :
    leapCount n - leapCount (n - 1) = if isLeapYear n then 1 else 0 := by
  unfold leapCount isLeapYear
  split <;> omega

theorem lastDayOfMonth_eq_daysInMonth (y m : Int) (h1 : 1 ≤ m) (h2 : m ≤ 12) :
    lastDayOfMonth y m = daysInMonth y m := by
  unfold lastDayOfMonth daysInMonth isLeapYear
  interval_cases m <;> norm_num

theorem daysInMonth_pos (y m : Int) : 1 ≤ daysInMonth y m := by
  unfold daysInMonth
  split_ifs <;> norm_num

/-- C10: on every valid proleptic Gregorian date, the manual previous-day
computation of the backward calendar walk (nested conditional over day and
month together with the hand-rolled month-length and leap-year table) yields
exactly the date one calendar day earlier: the result is again a valid date
and its rata die ordinal is one less, across month boundaries, year
boundaries, and February of leap and non-leap years. -/
theorem prevDate_correct (d : Date) (h : validDate d) :
    validDate (prevDate d) ∧ rataDie (prevDate d) = rataDie d - 1 := by
  obtain ⟨hm1, hm2, hd1, hd2⟩ := h
  rcases d with ⟨y, m, dd⟩
  simp only at hm1 hm2 hd1 hd2
  by_cases hgt : 1 < dd
  · constructor
    · have hdm := daysInMonth_pos y m
      simp only [prevDate, if_pos hgt, validDate]
      generalize daysInMonth y m = D at hd2 ⊢
      omega
    · simp only [prevDate, if_pos hgt, rataDie]
      ring
  · by_cases hm : 1 < m
    · have hdd : dd = 1 := by omega
      subst hdd
      have hld : lastDayOfMonth y (m - 1) = daysInMonth y (m - 1) :=
        lastDayOfMonth_eq_daysInMonth y (m - 1) (by omega) (by omega)
      constructor
      · simp only [prevDate, if_neg hgt, if_pos hm, validDate, hld]
        have hdm := daysInMonth_pos y (m - 1)
        generalize daysInMonth y (m - 1) = D at hdm ⊢
        omega
      · simp only [prevDate, if_neg hgt, if_pos hm, hld]
        interval_cases m <;>
          by_cases hl : isLeapYear y <;>
            norm_num [rataDie, daysBeforeMonth, daysInMonth, hl] <;>
              ring
    · have hdd : dd = 1 := by omega
      have hmm : m = 1 := by omega
      subst hdd
      subst hmm
      have hstep := leapCount_step (y - 1)
      constructor
      · simp only [prevDate, validDate]
        norm_num [daysInMonth]
      · simp only [prevDate]
        norm_num [rataDie, daysBeforeMonth]
        by_cases hl : isLeapYear (y - 1) <;> simp only [hl, if_pos, if_neg] at hstep ⊢ <;>
          generalize leapCount (y - 1 - 1) = a at hstep ⊢
        all_goals
          generalize leapCount (y - 1) = b at hstep ⊢
        all_goals simp_all
        all_goals omega

/-- Witness for C10 at the leap-February month boundary 2024-03-01. -/
theorem prevDate_correct_witness :
    validDate (prevDate ⟨2024, 3, 1⟩) ∧
      rataDie (prevDate ⟨2024, 3, 1⟩) = rataDie ⟨2024, 3, 1⟩ - 1 :=
  prevDate_correct ⟨2024, 3, 1⟩ (by decide)

theorem walkDates_mem {k : Nat} {c x : Date} (h : x ∈ walkDates k c) :
    x = c ∨ Date.lt x c := by
  induction k generalizing c with
  | zero => simp [walkDates] at h
  | succ k ih =>
    simp only [walkDates, List.mem_cons] at h
    rcases h with h | h
    · exact Or.inl h
    · rcases ih h with h1 | h1
      · right
        rw [h1]
        exact prevDate_lt c
      · right
        exact Date.lt_trans h1 (prevDate_lt c)

theorem walkDates_pairwise (k : Nat) (c : Date) :
    (walkDates k c).Pairwise (fun a b => Date.lt b a) := by
  induction k generalizing c with
  | zero => simp [walkDates]
  | succ k ih =>
    simp only [walkDates, List.pairwise_cons]
    refine ⟨?_, ih (prevDate c)⟩
    intro x hx
    rcases walkDates_mem hx with h | h
    · rw [h]
      exact prevDate_lt c
    · exact Date.lt_trans h (prevDate_lt c)

theorem gltdAux_eq (sched : Sched) (n : Int) (fuel : Nat) (cur : Date)
    (acc : List Date) :
    ∃ k ≤ fuel, gltdAux sched n fuel cur acc =
      acc ++ (walkDates k cur).filter (is_trading_day sched) := by
  induction fuel generalizing cur acc with
  | zero => exact ⟨0, Nat.le_refl 0, by simp [gltdAux, walkDates]⟩
  | succ fuel ih =>
    by_cases hlen : (acc.length : Int) < n
    · obtain ⟨k, hk, heq⟩ :=
        ih (prevDate cur) (if is_trading_day sched cur then acc ++ [cur] else acc)

      refine ⟨k + 1, by omega, ?_⟩
      simp only [gltdAux, if_pos hlen]
      rw [heq]
      by_cases ht : is_trading_day sched cur <;>
        simp [walkDates, List.filter_cons, ht]
    · refine ⟨0, by omega, ?_⟩
      simp only [gltdAux, if_neg hlen]
      simp [walkDates]

theorem gltdAux_length (sched : Sched) (n : Int) (fuel : Nat) (cur : Date)
    (acc : List Date) (h : acc.length ≤ n.toNat) :
    (gltdAux sched n fuel cur acc).length ≤ n.toNat := by
  induction fuel generalizing cur acc with
  | zero => simpa [gltdAux] using h
  | succ fuel ih =>
    simp only [gltdAux]
    split
    · apply ih
      rename_i hlen
      by_cases ht : is_trading_day sched cur <;> simp [ht] <;> omega
    · exact h

/-- C2: the recent-trading-days selector returns at most `numDays` dates in
strictly increasing chronological order, each a trading day; it is the
reversed trading-day filter of a backward one-day-at-a-time walk from the
reference date that examines at most `numDays * 10` calendar days; it returns
a partial list rather than failing when fewer trading days exist within that
bound (the embedding is total), and a non-positive count yields the empty
list. -/
theorem get_latest_trading_days_spec (sched : Sched) (latest : Date)
    (numDays : Int) :
    (get_latest_trading_days sched latest numDays).length ≤ numDays.toNat
  ∧ (get_latest_trading_days sched latest numDays).Pairwise Date.lt
  ∧ (∀ d ∈ get_latest_trading_days sched latest numDays,
      is_trading_day sched d = true)
  ∧ (∃ k ≤ (numDays * 10).toNat,
      get_latest_trading_days sched latest numDays =
        ((walkDates k latest).filter (is_trading_day sched)).reverse)
  ∧ (numDays ≤ 0 → get_latest_trading_days sched latest numDays = []) := by
  by_cases h0 : numDays ≤ 0
  · refine ⟨?_, ?_, ?_, ⟨0, by omega, ?_⟩, fun _ => ?_⟩ <;>
      simp [get_latest_trading_days, h0, walkDates]
  · obtain ⟨k, hk, heq⟩ := gltdAux_eq sched numDays (numDays * 10).toNat latest []
    have hunfold : get_latest_trading_days sched latest numDays =
        ((walkDates k latest).filter (is_trading_day sched)).reverse := by
      rw [get_latest_trading_days, if_neg h0, heq]
      simp
    refine ⟨?_, ?_, ?_, ⟨k, hk, hunfold⟩, fun hc => absurd hc h0⟩
    · rw [get_latest_trading_days, if_neg h0, List.length_reverse]
      exact gltdAux_length sched numDays (numDays * 10).toNat latest [] (by simp)
    · rw [hunfold, List.pairwise_reverse]
      exact List.Pairwise.filter _ (walkDates_pairwise k latest)
    · intro d hd
      rw [hunfold, List.mem_reverse, List.mem_filter] at hd
      exact hd.2

/-- Witness for C2: with an always-closed calendar and requested count 2, at
most two dates are returned. -/
theorem get_latest_trading_days_spec_witness :
    (get_latest_trading_days (fun _ => none) ⟨2024, 3, 15⟩ 2).length ≤
      (2 : Int).toNat :=
  (get_latest_trading_days_spec (fun _ => none) ⟨2024, 3, 15⟩ 2).1

/-- C3: the single-day trading-hours filter fails if and only if the boundary
lookup reports no open and close pair for the requested date; when a boundary
exists it returns the time-range filtered dataset normally, even when that
result is empty, so a caller can tell the closed case (error) from the
no-ticks-matched case (empty dataset). -/
theorem filter_trading_hours_closed_iff (sched : Sched) (ds : StockDataset)
    (d : Date) :
    ((∃ msg, filter_trading_hours sched ds d = Except.error msg) ↔ sched d = none)
  ∧ (∀ o c, sched d = some (o, c) →
      filter_trading_hours sched ds d = Except.ok (filter_by_time_range ds o c)) := by
  constructor
  · constructor
    · rintro ⟨msg, hmsg⟩
      cases hs : sched d with
      | none => rfl
      | some oc =>
        obtain ⟨o, c⟩ := oc
        rw [filter_trading_hours, hs] at hmsg
        exact absurd hmsg (by simp)
    · intro hs
      exact ⟨_, by rw [filter_trading_hours, hs]⟩
  · intro o c hs
    rw [filter_trading_hours, hs]

/-- Witness for C3: with a calendar that reports boundaries on every date, the
filter returns normally. -/
theorem filter_trading_hours_closed_iff_witness :
    filter_trading_hours schedOpen dsOne ⟨2024, 1, 1⟩ =
      Except.ok (filter_by_time_range dsOne tOpen tClose) :=
  (filter_trading_hours_closed_iff schedOpen dsOne ⟨2024, 1, 1⟩).2 tOpen tClose rfl

/-- C5: every point returned by the single-day trading-hours filter already
occurred in the input dataset, and its timestamp lies between the looked-up
open and close instants, both bounds inclusive. -/
theorem filter_trading_hours_subset (sched : Sched) (ds : StockDataset)
    (d : Date) (out : StockDataset)
    (hok : filter_trading_hours sched ds d = Except.ok out) :
    ∀ p ∈ out.data, p ∈ ds.data ∧ ∃ o c, sched d = some (o, c) ∧
      o.instant ≤ p.timestamp.instant ∧ p.timestamp.instant ≤ c.instant := by
  intro p hp
  cases hs : sched d with
  | none =>
    rw [filter_trading_hours, hs] at hok
    exact absurd hok (by simp)
  | some oc =>
    obtain ⟨o, c⟩ := oc
    rw [filter_trading_hours, hs] at hok
    have hout : out = filter_by_time_range ds o c := by
      cases hok
      rfl
    rw [hout, filter_by_time_range, mkStockDataset] at hp
    rw [List.mem_mergeSort, List.mem_filter] at hp
    obtain ⟨hmem, hpred⟩ := hp
    rw [inSession, Bool.and_eq_true, decide_eq_true_eq, decide_eq_true_eq] at hpred
    exact ⟨hmem, o, c, rfl, hpred.1, hpred.2⟩

/-- Witness for C5: the concrete 10:00 bar survives the 09:00 to 17:30 filter
and is a member of the input dataset. -/
theorem filter_trading_hours_subset_witness : p2024 ∈ dsOne.data :=
  (filter_trading_hours_subset schedOpen dsOne ⟨2024, 1, 1⟩
    (filter_by_time_range dsOne tOpen tClose) rfl p2024
    (by simp only [filter_by_time_range, mkStockDataset, List.mem_mergeSort]
        decide)).1

theorem tsLE_trans : ∀ (a b c : OHLCV), tsLE a b → tsLE b c → tsLE a c := by
  intro a b c h1 h2
  simp only [tsLE, decide_eq_true_eq] at h1 h2 ⊢
  omega

theorem tsLE_total : ∀ (a b : OHLCV), tsLE a b || tsLE b a := by
  intro a b
  simp only [tsLE, Bool.or_eq_true, decide_eq_true_eq]
  omega

theorem mkStockDataset_pairwise (l : List OHLCV) :
    (mkStockDataset l).data.Pairwise (fun a b => tsLE a b = true) :=
  List.sorted_mergeSort tsLE_trans tsLE_total l

theorem mkStockDataset_stable (l : List OHLCV) (t : Int) :
    (mkStockDataset l).data.filter (fun p => decide (p.timestamp.instant = t)) =
      l.filter (fun p => decide (p.timestamp.instant = t)) := by
  have hsub : List.Sublist (l.filter (fun p => decide (p.timestamp.instant = t)))
      (l.mergeSort tsLE) := by
    apply List.sublist_mergeSort tsLE_trans tsLE_total
    · apply List.pairwise_of_forall_mem_list
      intro a ha b hb
      rw [List.mem_filter, decide_eq_true_eq] at ha hb
      simp only [tsLE, decide_eq_true_eq]
      omega
    · exact List.filter_sublist l
  have hperm : List.Perm
      ((l.mergeSort tsLE).filter (fun p => decide (p.timestamp.instant = t)))
      (l.filter (fun p => decide (p.timestamp.instant = t))) :=
    (List.mergeSort_perm l tsLE).filter _
  have h2 : List.Sublist (l.filter (fun p => decide (p.timestamp.instant = t)))
      ((l.mergeSort tsLE).filter (fun p => decide (p.timestamp.instant = t))) := by
    have h3 := hsub.filter (fun p => decide (p.timestamp.instant = t))
    rw [List.filter_filter] at h3
    simpa only [Bool.and_self] using h3
  exact (h2.eq_of_length hperm.length_eq.symm).symm

/-- C6: dataset construction stably sorts the points by timestamp, so stored
data is pairwise ordered by timestamp instant, points with equal timestamps
keep their original relative order, and the datasets returned by the date
filter and the time-range filter satisfy the same sortedness invariant. -/
theorem dataset_sorted_spec (l : List OHLCV) (ds : StockDataset)
    (target s e : DateTime) (t : Int) :
    (mkStockDataset l).data.Pairwise (fun a b => tsLE a b = true)
  ∧ (mkStockDataset l).data.filter (fun p => decide (p.timestamp.instant = t)) =
      l.filter (fun p => decide (p.timestamp.instant = t))
  ∧ (filter_by_date ds target).data.Pairwise (fun a b => tsLE a b = true)
  ∧ (filter_by_time_range ds s e).data.Pairwise (fun a b => tsLE a b = true) :=
  ⟨mkStockDataset_pairwise l, mkStockDataset_stable l t,
    mkStockDataset_pairwise _, mkStockDataset_pairwise _⟩

/-- C4: the alignment step keeps exactly the indicator entries whose timestamp
instant occurs among the timestamps of the filtered dataset, dropping every
entry outside the filtered window, preserving entries with no computed value
(the `none` marker) whenever their timestamp is in the window, and preserving
the original entry order. -/
theorem alignIndicator_spec (pts : List (DateTime × Option Fl))
    (filtered : StockDataset) :
    (∀ t v, (t, v) ∈ alignIndicator pts filtered ↔
      ((t, v) ∈ pts ∧ ∃ p ∈ filtered.data, p.timestamp.instant = t.instant))
  ∧ List.Sublist (alignIndicator pts filtered) pts := by
  constructor
  · intro t v
    simp [alignIndicator, List.mem_filter, List.any_eq_true]
  · exact List.filter_sublist pts

theorem sortedFilter {l : List OHLCV}
    (h : l.Pairwise (fun a b => tsLE a b = true)) (p : OHLCV → Bool) :
    (l.filter p).mergeSort tsLE = l.filter p :=
  List.mergeSort_of_sorted (List.Pairwise.sublist (List.filter_sublist l) h)

theorem multiDayBody_eq (sched : Sched) (ds : StockDataset)
    (hs : ds.data.Pairwise (fun a b => tsLE a b = true)) (acc : List OHLCV)
    (day : Date) :
    multiDayBody sched ds acc day = acc ++ specPerDay sched ds.data day := by
  have hday : (filter_by_date ds ⟨day, 0, 0⟩).data = sameDaySlice ds.data day :=
    sortedFilter hs _
  have hslice : (sameDaySlice ds.data day).Pairwise (fun a b => tsLE a b = true) :=
    List.Pairwise.sublist (List.filter_sublist _) hs
  cases hsch : sched day with
  | none =>
    have hfth : filter_trading_hours sched (filter_by_date ds ⟨day, 0, 0⟩) day =
        Except.error "Exchange is closed on the target date" := by
      rw [filter_trading_hours, hsch]
    simp only [multiDayBody, hfth]
    simp only [specPerDay, hsch]
    rw [hday]
    by_cases hemp : sameDaySlice ds.data day = []
    · simp [hemp]
    · rw [if_neg (by simpa [List.isEmpty_iff] using hemp)]
  | some oc =>
    obtain ⟨o, c⟩ := oc
    have hfth : filter_trading_hours sched (filter_by_date ds ⟨day, 0, 0⟩) day =
        Except.ok (filter_by_time_range (filter_by_date ds ⟨day, 0, 0⟩) o c) := by
      rw [filter_trading_hours, hsch]
    have hf : (filter_by_time_range (filter_by_date ds ⟨day, 0, 0⟩) o c).data =
        (sameDaySlice ds.data day).filter (inSession o c) := by
      show ((filter_by_date ds ⟨day, 0, 0⟩).data.filter (inSession o c)).mergeSort tsLE = _
      rw [hday]
      exact sortedFilter hslice _
    simp only [multiDayBody, hfth]
    rw [hf, hday]
    simp only [specPerDay, hsch]
    by_cases h1 : sameDaySlice ds.data day = []
    · simp [h1]
    · by_cases h2 : (sameDaySlice ds.data day).filter (inSession o c) = [] <;>
        simp [h1, h2, List.isEmpty_iff]

theorem multiDayFoldl (sched : Sched) (ds : StockDataset)
    (hs : ds.data.Pairwise (fun a b => tsLE a b = true)) (days : List Date)
    (acc : List OHLCV) :
    days.foldl (multiDayBody sched ds) acc = acc ++ specConcat sched ds.data days := by
  induction days generalizing acc with
  | nil => simp [specConcat]
  | cons d rest ih =>
    rw [List.foldl_cons, multiDayBody_eq sched ds hs, ih]
    simp [specConcat, List.append_assoc]

/-- C1 (amended): on a dataset whose stored points are sorted (the dataset
invariant), the multi-day filtering branch computes, for each requested date,
the same-day slice followed by the trading-hours filter with fallback to the
slice when the venue is closed or the hours filter is empty; the output
dataset is built from the concatenation of the per-day results when that
concatenation is non-empty (so it is a permutation of it, and equals it
whenever the concatenation is chronologically ordered), and falls back to the
entire input dataset when the concatenation is empty. -/
theorem multi_day_filter_spec (sched : Sched) (ds : StockDataset)
    (days : List Date)
    (hs : ds.data.Pairwise (fun a b => tsLE a b = true)) :
    multiDayFilter sched ds days =
      (if specConcat sched ds.data days = [] then ds
       else mkStockDataset (specConcat sched ds.data days))
  ∧ (specConcat sched ds.data days ≠ [] →
      List.Perm (multiDayFilter sched ds days).data (specConcat sched ds.data days))
  ∧ ((specConcat sched ds.data days).Pairwise (fun a b => tsLE a b = true) →
      specConcat sched ds.data days ≠ [] →
      (multiDayFilter sched ds days).data = specConcat sched ds.data days) := by
  have hkey : multiDayFilter sched ds days =
      (if specConcat sched ds.data days = [] then ds
       else mkStockDataset (specConcat sched ds.data days)) := by
    simp only [multiDayFilter]
    rw [multiDayFoldl sched ds hs days []]
    simp only [List.nil_append, List.isEmpty_iff]
  refine ⟨hkey, ?_, ?_⟩
  · intro hne
    rw [hkey, if_neg hne]
    exact List.mergeSort_perm _ tsLE
  · intro hpair hne
    rw [hkey, if_neg hne]
    exact List.mergeSort_of_sorted hpair

/-- Counterexample for C1 as stated: a trading date (the calendar reports
boundaries for it) on which the series has no points makes every per-day
result empty, so the concatenation of per-day results is empty, yet the branch
returns the entire input dataset rather than that empty concatenation. -/
theorem multi_day_filter_cex :
    (multiDayFilter schedOpen dsOne [⟨2024, 1, 2⟩]).data = [p2024]
  ∧ specConcat schedOpen dsOne.data [⟨2024, 1, 2⟩] = []
  ∧ (multiDayFilter schedOpen dsOne [⟨2024, 1, 2⟩]).data ≠
      specConcat schedOpen dsOne.data [⟨2024, 1, 2⟩] := by
  have h2 : specConcat schedOpen dsOne.data [⟨2024, 1, 2⟩] = [] := by
    simp +decide [specConcat, specPerDay, sameDaySlice, schedOpen, dsOne, p2024]
  have h1 : (multiDayFilter schedOpen dsOne [⟨2024, 1, 2⟩]).data = [p2024] := by
    simp +decide [multiDayFilter, multiDayBody, filter_by_date, mkStockDataset,
      dsOne, p2024, schedOpen]
  exact ⟨h1, h2, by rw [h1, h2]; simp⟩

/-- Witness for C1 (amended), at an input whose per-day concatenation is
non-empty: a closed date whose same-day slice holds the single point, so the
fallback keeps it. -/
theorem multi_day_filter_spec_witness :
    multiDayFilter schedClosed dsOne [⟨2024, 1, 1⟩] =
      (if specConcat schedClosed dsOne.data [⟨2024, 1, 1⟩] = [] then dsOne
       else mkStockDataset (specConcat schedClosed dsOne.data [⟨2024, 1, 1⟩])) :=
  (multi_day_filter_spec schedClosed dsOne [⟨2024, 1, 1⟩] (by simp [dsOne])).1

/-- Counterexample for C7 as stated: a single requested indicator with window
length 200 over a 50-point full history does not complete with all-`None`
aligned values; period validation rejects it, the error reaches the handler in
`main`, and the run exits fatally with no indicator output at all. -/
theorem process_indicators_cex :
    process_indicators [⟨"ema", 200, "#FF0000"⟩] 50 =
      Except.error "No indicators have valid periods for 50 data points" := by
  rfl

/-- C7 (amended): an indicator whose window length exceeds the full-history
point count is dropped by period validation, so it never appears in the
validated configuration that indicator calculation runs on; and when every
requested indicator is over-long, validation raises and the run exits with an
error instead of completing. -/
theorem validate_periods_drop_spec (specs : List IndicatorSpec) (n : Int)
    (hn : 0 < n) :
    ((∀ s ∈ specs, n < s.period) →
      process_indicators specs n =
        Except.error s!"No indicators have valid periods for {n} data points")
  ∧ (∀ res, process_indicators specs n = Except.ok res →
      ∀ s ∈ specs, n < s.period → s ∉ res) := by
  have hnn : ¬ n ≤ 0 := by omega
  constructor
  · intro hall
    have hfilter : specs.filter (fun i => decide (i.period ≤ n)) = [] := by
      rw [List.filter_eq_nil_iff]
      intro s hsmem
      have := hall s hsmem
      simp only [decide_eq_true_eq]
      omega
    rw [process_indicators, validate_periods_against_data, if_neg hnn]
    simp only [hfilter, List.isEmpty_nil]
    rfl
  · intro res hres s hsmem hper
    rw [process_indicators] at hres
    cases hv : validate_periods_against_data specs n with
    | error e => rw [hv] at hres; exact absurd hres (by simp)
    | ok cfg =>
      rw [hv] at hres
      have hcfg : cfg = specs.filter (fun i => decide (i.period ≤ n)) := by
        rw [validate_periods_against_data, if_neg hnn] at hv
        by_cases hemp : (specs.filter (fun i => decide (i.period ≤ n))).isEmpty
        · rw [if_pos hemp] at hv
          exact absurd hv (by simp)
        · rw [if_neg hemp] at hv
          cases hv
          rfl
      have hres2 : res = cfg.filter (fun i => decide (i.period ≤ n)) := by
        simp only [validate_data_sufficiency, if_neg hnn] at hres
        by_cases hemp : (cfg.filter (fun i => decide (i.period ≤ n))).isEmpty
        · rw [if_pos hemp] at hres
          exact absurd hres (by simp)
        · rw [if_neg hemp] at hres
          cases hres
          rfl
      intro hmem
      rw [hres2, List.mem_filter, decide_eq_true_eq] at hmem
      omega

/-- Witness for C7 (amended): a single indicator of period 3 over 2 points is
rejected and the stage errors. -/
theorem validate_periods_drop_spec_witness :
    process_indicators [⟨"ema", 3, "#FF0000"⟩] 2 =
      Except.error "No indicators have valid periods for 2 data points" :=
  (validate_periods_drop_spec [⟨"ema", 3, "#FF0000"⟩] 2 (by norm_num)).1 (by
    intro s hsmem
    rw [List.mem_singleton] at hsmem
    rw [hsmem]
    norm_num)

/-- C8: exporting a non-empty dataset to JSON succeeds, and re-reading the
data array of the produced document yields the same number of records, in the
same order, with the open, high, low, close and volume values of the original
points and with the offset-normalized original timestamps. -/
theorem export_roundtrip (ds : StockDataset) (hne : ds.data ≠ []) :
    export_to_json ds = Except.ok (create_json_structure ds)
  ∧ (read_data_array (create_json_structure ds)).length = ds.data.length
  ∧ read_data_array (create_json_structure ds) = ds.data.map recordOfPoint
  ∧ (read_data_array (create_json_structure ds)).map (fun r => r.timestamp) =
      ds.data.map (fun p => normalizeTimestamp p.timestamp)
  ∧ (read_data_array (create_json_structure ds)).map (fun r => r.open_) =
      ds.data.map (fun p => p.open_)
  ∧ (read_data_array (create_json_structure ds)).map (fun r => r.high) =
      ds.data.map (fun p => p.high)
  ∧ (read_data_array (create_json_structure ds)).map (fun r => r.low) =
      ds.data.map (fun p => p.low)
  ∧ (read_data_array (create_json_structure ds)).map (fun r => r.close) =
      ds.data.map (fun p => p.close)
  ∧ (read_data_array (create_json_structure ds)).map (fun r => r.volume) =
      ds.data.map (fun p => p.volume) := by
  refine ⟨?_, ?_, rfl, ?_, ?_, ?_, ?_, ?_, ?_⟩
  · rw [export_to_json, if_neg (by simpa [List.isEmpty_iff] using hne)]
  · simp [read_data_array, create_json_structure]
  all_goals
    simp [read_data_array, create_json_structure, recordOfPoint, List.map_map,
      Function.comp]

/-- Witness for C8 at the concrete one-point dataset. -/
theorem export_roundtrip_witness :
    export_to_json dsOne = Except.ok (create_json_structure dsOne) :=
  (export_roundtrip dsOne (by simp [dsOne])).1

/-- Counterexample for C9 as stated: a CSV row whose cells all parse but whose
volume is negative survives ingestion unchanged; the resulting dataset
contains a point that violates the claimed invariant `volume >= 0`. -/
theorem load_csv_cex :
    load_csv [rowNegVolume] = Except.ok (mkStockDataset [ptNegVolume])
  ∧ ptNegVolume ∈ (mkStockDataset [ptNegVolume]).data
  ∧ Fl.ge0 ptNegVolume.volume = false := by
  refine ⟨rfl, ?_, rfl⟩
  simp [mkStockDataset]

/-- C9 (amended): the points of a dataset constructed by ingestion are exactly
the rows whose timestamp and five numeric cells all parsed; ingestion applies
no finiteness or non-negativity check, so any fully parsed row survives,
including rows with non-finite prices or negative volume. -/
theorem load_csv_spec (rows : List CsvRow) (ds : StockDataset)
    (hok : load_csv rows = Except.ok ds) :
    ∀ p, p ∈ ds.data ↔ p ∈ rows.filterMap parseRow := by
  intro p
  rw [load_csv] at hok
  by_cases h : (rows.filterMap parseRow).isEmpty
  · rw [if_pos h] at hok
    exact absurd hok (by simp)
  · rw [if_neg h] at hok
    cases hok
    simp [mkStockDataset]

/-- Witness for C9 (amended) at the negative-volume row. -/
theorem load_csv_spec_witness :
    ptNegVolume ∈ (mkStockDataset [ptNegVolume]).data ↔
      ptNegVolume ∈ [rowNegVolume].filterMap parseRow :=
  load_csv_spec [rowNegVolume] (mkStockDataset [ptNegVolume]) rfl ptNegVolume

end PlotStock
